import Mathlib

/-!
A shallow embedding of the `cli-styler` repository's grammar layer
(`src/parser.rs`, `core/src/style.rs`, `core/src/markup.rs`).

Rust strings are modelled as `List Char`.  Where the source inspects the
UTF-8 byte length of a string (`str::len`) the embedding uses `utf8Len`
(the sum of the characters' UTF-8 sizes), so the length checks agree with
the source on all inputs.  `char::to_lowercase`, `str::trim` and the
whitespace classifiers are modelled on their documented character sets
(`to_lowercase` on the ASCII range; all inputs appearing in the theorems
below are ASCII, where the models coincide exactly with the source).
Byte-indexed slicing of the expanded hex string (`&expanded[0..2]` etc.)
is modelled by character positions; the two agree whenever the hex body
is ASCII, which every theorem below assumes or instantiates.

Functions that can `panic!` / `todo!` in the source return a `PResult`,
whose `panic` constructor carries the panic message; ordinary fallible
functions return `Except` exactly as the source returns `Result`.
-/

/-- Outcome of a Rust computation that may panic: either a panic with its
message, a returned `Err`, or a returned `Ok`. -/
inductive PResult (ε α : Type) where
  | panic (msg : List Char)
  | error (e : ε)
  | ok (a : α)
  deriving DecidableEq, Repr

/-- Whether a `PResult` is a returned `Err` value. -/
def PResult.isError {ε α : Type} : PResult ε α → Bool
  | .error _ => true
  | _ => false

/-- `char::is_ascii_digit`. -/
def isAsciiDigit (c : Char) : Bool := '0' ≤ c && c ≤ '9'

/-- `char::is_ascii_whitespace`: space, horizontal tab, newline, form feed,
carriage return. -/
def isAsciiWs (c : Char) : Bool :=
  c = ' ' || c = '\t' || c = '\n' || c = '\x0c' || c = '\r'

/-- `char::is_ascii_alphanumeric`. -/
def isAsciiAlnum (c : Char) : Bool :=
  isAsciiDigit c || ('a' ≤ c && c ≤ 'z') || ('A' ≤ c && c ≤ 'Z')

/-- `char::is_whitespace` (the Unicode `White_Space` property), used by
`str::split_whitespace` and `str::trim`. -/
def isRustWs (c : Char) : Bool :=
  let n := c.toNat
  n = 0x09 || n = 0x0a || n = 0x0b || n = 0x0c || n = 0x0d || n = 0x20 ||
  n = 0x85 || n = 0xa0 || n = 0x1680 ||
  (0x2000 <= n && n <= 0x200a) ||
  n = 0x2028 || n = 0x2029 || n = 0x202f || n = 0x205f || n = 0x3000

/-- `char::to_lowercase`, modelled on the ASCII range. -/
def asciiToLower (c : Char) : Char :=
  if 'A' ≤ c && c ≤ 'Z' then Char.ofNat (c.toNat + 32) else c

/-- UTF-8 byte length of a string, as `str::len` computes it. -/
def utf8Len (l : List Char) : Nat := (l.map Char.utf8Size).sum

/-- `str::trim`: strip leading and trailing whitespace. -/
def trimWs (l : List Char) : List Char :=
  ((l.dropWhile isRustWs).reverse.dropWhile isRustWs).reverse

/-- Accumulator pass of `str::split_whitespace`: `acc` holds the reversed
characters of the token currently being read. -/
def splitWsAux : List Char → List Char → List (List Char)
  | [], acc => if acc.isEmpty then [] else [acc.reverse]
  | c :: cs, acc =>
    if isRustWs c then
      if acc.isEmpty then splitWsAux cs []
      else acc.reverse :: splitWsAux cs []
    else splitWsAux cs (c :: acc)

/-- `str::split_whitespace`: whitespace-separated tokens, empties dropped. -/
def splitWs (l : List Char) : List (List Char) := splitWsAux l []

/-- `str::split(',')`: comma-separated fields, empties kept. -/
def commaSplit : List Char → List (List Char)
  | [] => [[]]
  | c :: cs =>
    if c = ',' then [] :: commaSplit cs
    else
      match commaSplit cs with
      | [] => [[c]]
      | t :: ts => (c :: t) :: ts

/-- Decimal value of a digit list. -/
def digitsVal (l : List Char) : Nat :=
  l.foldl (fun a c => a * 10 + (c.toNat - '0'.toNat)) 0

/-- The optional leading `+` sign accepted by Rust's integer parsers. -/
def stripPlus : List Char → List Char
  | '+' :: rest => rest
  | l => l

/-- `str::parse::<u8>`: optional leading `+`, then one or more ASCII
digits, value at most 255. -/
def parseU8 (l : List Char) : Option Nat :=
  let digits := stripPlus l
  if digits.isEmpty || !digits.all isAsciiDigit then none
  else
    let v := digitsVal digits
    if v ≤ 255 then some v else none

/-- Hex digit predicate accepted by `u8::from_str_radix(_, 16)`. -/
def isHexDigitChar (c : Char) : Bool :=
  isAsciiDigit c || ('a' ≤ c && c ≤ 'f') || ('A' ≤ c && c ≤ 'F')

/-- Numeric value of one hex digit. -/
def hexDigitVal (c : Char) : Nat :=
  if isAsciiDigit c then c.toNat - '0'.toNat
  else if 'a' ≤ c && c ≤ 'f' then c.toNat - 'a'.toNat + 10
  else c.toNat - 'A'.toNat + 10

/-- Base-16 value of a hex-digit list. -/
def hexVal (l : List Char) : Nat := l.foldl (fun a c => a * 16 + hexDigitVal c) 0

/-- `u8::from_str_radix(_, 16)`: optional leading `+`, then one or more
hex digits, value at most 255. -/
def parseHexU8 (l : List Char) : Option Nat :=
  let digits := stripPlus l
  if digits.isEmpty || !digits.all isHexDigitChar then none
  else
    let v := hexVal digits
    if v ≤ 255 then some v else none

/-- Decimal rendering of a natural number. -/
def natChars (n : Nat) : List Char := (Nat.repr n).data

/- ===== error.rs ===== -/

/-- `ParsingError` from `error.rs`. -/
inductive ParsingError where
  | eof (s : List Char)
  | invalidTagChar (c : Char)
  | tooManyArgs (s : List Char) (n : Nat)
  | missingParamVal (s : List Char)
  | invalidParamName (s : List Char)
  | invalidClrSpec (s : List Char)
  | invalidHexClr (s : List Char) (n : Nat)
  | invalidHexComp (c : Char) (s : List Char)
  | unknownClrFmt (s : List Char)
  | unexpectedClosingTag
  | unclosedTags
  | invalidModifier (c : Char)
  deriving DecidableEq, Repr

/-- The `thiserror` display string of a `ParsingError`, as interpolated by
`panic!("... {err}")`. -/
def ParsingError.display : ParsingError → List Char
  | .eof s => "End of File after: ".data ++ s
  | .invalidTagChar c => "Invalid character in tag name: ".data ++ [c]
  | .tooManyArgs s n => "Too many arguments (<=6): ".data ++ s ++ ":".data ++ natChars n
  | .missingParamVal s => "Missing parameter value: ".data ++ s
  | .invalidParamName s => "Invalid paramater name: ".data ++ s
  | .invalidClrSpec s => "Invalid color alias: ".data ++ s
  | .invalidHexClr s n => "Invalid hex color length: ".data ++ s ++ ":".data ++ natChars n
  | .invalidHexComp c s => "Invalid Hex (".data ++ [c] ++ ") component: ".data ++ s
  | .unknownClrFmt s => "Unknown color format: ".data ++ s
  | .unexpectedClosingTag => "Unexpected closing tag".data
  | .unclosedTags => "Unclosed Tags".data
  | .invalidModifier c => "Invalid modifier: ".data ++ [c]

/-- `StylerError` from `error.rs` (only the variants needed here). -/
inductive StylerError where
  | missingText
  | invalidColor (s : List Char)
  | invalidModifier (c : Char)
  | invalidArgument (s : List Char)
  | missingValue (s : List Char)
  | invalidRgbFormat (s : List Char)
  | invalidHexColor (s : List Char)
  | parsingError (e : ParsingError)
  deriving DecidableEq, Repr

/- ===== style.rs: data model ===== -/

/-- `ClrType`: the four color channels. -/
inductive ClrType where
  | fg
  | bg
  | fgBright
  | bgBright
  deriving DecidableEq, Repr

/-- The numeric offset of a channel (`ClrType`'s discriminant values). -/
def ClrType.offset : ClrType → Nat
  | .fg => 0
  | .bg => 10
  | .fgBright => 60
  | .bgBright => 70

/-- `ClrType::get_csi`: 38 for foreground channels, 48 for background. -/
def ClrType.getCsi : ClrType → Nat
  | .fg | .fgBright => 38
  | .bg | .bgBright => 48

/-- `Color` from `style.rs`. -/
inductive Color where
  | black
  | red
  | green
  | yellow
  | blue
  | magenta
  | cyan
  | white
  | indexed (i : Nat)
  | rgb (r g b : Nat)
  deriving DecidableEq, Repr

/-- `Color::to_num`: ANSI base code of a named hue, 0 otherwise. -/
def Color.toNum : Color → Nat
  | .black => 30
  | .red => 31
  | .green => 32
  | .yellow => 33
  | .blue => 34
  | .magenta => 35
  | .cyan => 36
  | .white => 37
  | _ => 0

/-- `Color::format`: render a color for a channel as an SGR parameter
fragment. -/
def Color.format (c : Color) (ct : ClrType) : List Char :=
  match c with
  | .indexed i => natChars ct.getCsi ++ ";5;".data ++ natChars i
  | .rgb r g b =>
    natChars ct.getCsi ++ ";2;".data ++ natChars r ++ ";".data ++ natChars g
      ++ ";".data ++ natChars b
  | color => natChars (color.toNum + ct.offset)

/-- `Modifier` from `style.rs`. -/
inductive Modifier where
  | reset
  | bold
  | dim
  | italic
  | underline
  | blink
  | invert
  | hide
  | strike
  | doubleUL
  | overline
  deriving DecidableEq, Repr

/-- The SGR code of a modifier (`Modifier`'s discriminant values). -/
def Modifier.code : Modifier → Nat
  | .reset => 0
  | .bold => 1
  | .dim => 2
  | .italic => 3
  | .underline => 4
  | .blink => 5
  | .invert => 7
  | .hide => 8
  | .strike => 9
  | .doubleUL => 21
  | .overline => 53

/-- `Modifier::from_char`. -/
def Modifier.fromChar (ch : Char) : Option Modifier :=
  match ch with
  | 'b' => some .bold
  | 'd' => some .dim
  | 'i' => some .italic
  | 'u' => some .underline
  | 'k' => some .blink
  | 'v' => some .invert
  | 'h' => some .hide
  | 's' => some .strike
  | 'l' => some .doubleUL
  | 'o' => some .overline
  | _ => none

/-- `Style` from `style.rs`. -/
structure Style where
  fg : Option (Color × ClrType) := none
  bg : Option (Color × ClrType) := none
  mdfs : List Modifier := []
  deriving DecidableEq, Repr

/-- `Style::new`. -/
def Style.new : Style := {}

/-- `Style::fg`: replace the foreground color, keeping an existing channel. -/
def Style.setFg (st : Style) (color : Color) : Style :=
  { st with
    fg := match st.fg with
      | some (_, ct) => some (color, ct)
      | none => some (color, ClrType.fg) }

/-- `Style::bg`: replace the background color, keeping an existing channel. -/
def Style.setBg (st : Style) (color : Color) : Style :=
  { st with
    bg := match st.bg with
      | some (_, ct) => some (color, ct)
      | none => some (color, ClrType.bg) }

/-- `Style::fg_brighten`: force the foreground channel to bright, keeping an
existing color (default `White` when none was set). -/
def Style.fgBrighten (st : Style) : Style :=
  { st with
    fg := match st.fg with
      | some (clr, _) => some (clr, ClrType.fgBright)
      | none => some (Color.white, ClrType.fgBright) }

/-- `Style::bg_brighten`. -/
def Style.bgBrighten (st : Style) : Style :=
  { st with
    bg := match st.bg with
      | some (clr, _) => some (clr, ClrType.bgBright)
      | none => some (Color.white, ClrType.bgBright) }

/-- `Style::is_empty`. -/
def Style.isEmptyStyle (st : Style) : Bool :=
  st.fg.isNone && st.bg.isNone && st.mdfs.isEmpty

/-- `Style::collect`: the semicolon-joined SGR parameter string. -/
def Style.collect (st : Style) : List Char :=
  if st.isEmptyStyle then []
  else
    let fgPart := match st.fg with
      | some (c, ct) => [c.format ct]
      | none => []
    let bgPart := match st.bg with
      | some (c, ct) => [c.format ct]
      | none => []
    List.intercalate ";".data (fgPart ++ bgPart ++ st.mdfs.map (fun m => natChars m.code))

/-- The escape character. -/
def escChar : Char := '\x1b'

/-- The `RESET` constant `"\x1b[0m"`. -/
def resetSeq : List Char := [escChar, '[', '0', 'm']

/-- `csi(formats)`: `ESC [ formats m`. -/
def csiSeq (formats : List Char) : List Char :=
  escChar :: '[' :: formats ++ ['m']

/-- `wrap(text, formats)` from `style.rs`. -/
def wrap (text formats : List Char) : List Char :=
  if text.isEmpty || formats.isEmpty then text
  else csiSeq formats ++ text ++ resetSeq

/-- `Stylable::style` for `Style`: wrap the text with the collected codes. -/
def Style.styleApply (st : Style) (text : List Char) : List Char :=
  wrap text st.collect

/-- A `CompiledStyle` is the collected SGR parameter string. -/
def Style.compile (st : Style) : List Char := st.collect

/-- `Stylable::style` for `CompiledStyle`. -/
def compiledApply (compiled text : List Char) : List Char := wrap text compiled

/- ===== parser.rs: color and style grammar ===== -/

/-- `ParsingMode` from `parser.rs`. -/
inductive ParsingMode where
  | markup
  | commandLine
  deriving DecidableEq, Repr

/-- The mode-specific hex marker check: `strip_prefix('#')` in markup mode,
`strip_suffix('#')` in command-line mode. -/
def hexStrip (mode : ParsingMode) (s : List Char) : Option (List Char) :=
  match mode with
  | .markup => match s with
    | '#' :: body => some body
    | _ => none
  | .commandLine =>
    if s.getLast? = some '#' then some s.dropLast else none

/-- Single-letter alias lookup of `parse_color` (first branch's `match`). -/
def aliasLookup (s : List Char) : Except ParsingError Color :=
  match s with
  | ['r'] => .ok .red
  | ['g'] => .ok .green
  | ['b'] => .ok .blue
  | ['c'] => .ok .cyan
  | ['m'] => .ok .magenta
  | ['y'] => .ok .yellow
  | ['k'] => .ok .black
  | ['w'] => .ok .white
  | _ => .error (.invalidClrSpec s)

/-- The hex branch of `parse_color`: expand the body to six digits
(length 2: repeated three times; length 3: each digit doubled; length 6:
as-is), then parse the three 2-digit base-16 components. -/
def hexParse (hex : List Char) : Except ParsingError Color :=
  match utf8Len hex with
  | 2 => hexComponents (hex ++ hex ++ hex)
  | 3 => hexComponents ((hex.map (fun c => [c, c])).flatten)
  | 6 => hexComponents hex
  | l => .error (.invalidHexClr hex l)
where
  /-- Parse `expanded[0..2]`, `expanded[2..4]`, `expanded[4..6]` as the
  r, g, b components. -/
  hexComponents (expanded : List Char) : Except ParsingError Color :=
    match parseHexU8 (expanded.take 2) with
    | none => .error (.invalidHexComp 'r' expanded)
    | some r =>
      match parseHexU8 ((expanded.drop 2).take 2) with
      | none => .error (.invalidHexComp 'g' expanded)
      | some g =>
        match parseHexU8 ((expanded.drop 4).take 2) with
        | none => .error (.invalidHexComp 'b' expanded)
        | some b => .ok (.rgb r g b)

/-- `parse_color` from `parser.rs`. -/
def parseColor (v : List Char) (mode : ParsingMode) : Except ParsingError Color :=
  let s := v.map asciiToLower
  if utf8Len s = 1 && !isAsciiDigit (s.headD ' ') then
    aliasLookup s
  else
    match parseU8 s with
    | some i => .ok (.indexed i)
    | none =>
      match hexStrip mode s with
      | some hex => hexParse hex
      | none =>
        match (commaSplit s).map (fun p => (parseU8 (trimWs p)).getD 0) with
        | [a, b, c] => .ok (.rgb a b c)
        | _ => .error (.unknownClrFmt s)

/-- `parse_modfiers` from `parser.rs`: map each character through
`Modifier::from_char`, failing on the first unknown character. -/
def parseModifiers : List Char → Except ParsingError (List Modifier)
  | [] => .ok []
  | ch :: rest =>
    match Modifier.fromChar ch with
    | none => .error (.invalidModifier ch)
    | some m =>
      match parseModifiers rest with
      | .error e => .error e
      | .ok ms => .ok (m :: ms)

/-- `chunks_exact(2)`: consecutive pairs, any trailing element dropped. -/
def chunkPairs {α : Type} : List α → List (α × α)
  | a :: b :: rest => (a, b) :: chunkPairs rest
  | _ => []

/-- One `(flag, value)` pair of `parse_style`'s fold. -/
def applyPair (mode : ParsingMode) (param val : List Char) (st : Style) :
    Except ParsingError Style :=
  if param = "f".data then (parseColor val mode).map st.setFg
  else if param = "b".data then (parseColor val mode).map st.setBg
  else if param = "fb".data then
    (parseColor val mode).map (fun c => (st.setFg c).fgBrighten)
  else if param = "bb".data then
    (parseColor val mode).map (fun c => (st.setBg c).bgBrighten)
  else if param = "m".data then
    (parseModifiers val).map (fun ms => { st with mdfs := st.mdfs ++ ms })
  else .error (.invalidParamName param)

/-- The left-to-right fold of `parse_style` over the `(flag, value)` pairs. -/
def foldPairs (mode : ParsingMode) : List (List Char × List Char) → Style →
    Except ParsingError Style
  | [], st => .ok st
  | (p, v) :: rest, st =>
    match applyPair mode p v st with
    | .error e => .error e
    | .ok st' => foldPairs mode rest st'

/-- `parse_style` from `parser.rs`. -/
def parseStyle (s : List Char) (mode : ParsingMode) : Except ParsingError Style :=
  let arguments := splitWs s
  let length := arguments.length
  if length > 6 then .error (.tooManyArgs s length)
  else if length % 2 = 1 then .error (.missingParamVal s)
  else foldPairs mode (chunkPairs arguments) Style.new

/- ===== parser.rs: markup tokenizer ===== -/

/-- `Token` from `parser.rs`: `End` (`</>`), `Empty` (`<>`), `Fmt(style)`
(`<spec>`), `Text(run)`. -/
inductive Token where
  | endTag
  | empty
  | fmt (st : Style)
  | text (t : List Char)
  deriving DecidableEq, Repr

/-- `State` from `parser.rs`: the tokenizer's state machine states. -/
inductive TkState where
  | txt
  | lt
  | backslash
  | maybeClose
  | tag (acc : List Char)
  deriving DecidableEq, Repr

/-- The `todo!` panic message on `MaybeClose` + a non-`>` character. -/
def namedCloseMsg (c : Char) : List Char :=
  "not yet implemented: Named closing tags are not supported: ".data ++ [c]

/-- The tokenizer loop of `tokenize`: consumes the remaining characters,
carrying the state, the pending text run, and the emitted tokens.
The source's `BackSlash` + end-of-input step pushes `\` and loops once
more into `Text` + end-of-input, which flushes; that final iteration is
inlined here so the recursion is structural on the character list. -/
def tokLoop (mode : ParsingMode) : List Char → TkState → List Char →
    List Token → PResult ParsingError (List Token)
  | [], .txt, text, tokens =>
    if text.isEmpty then .ok tokens else .ok (tokens ++ [.text text])
  | c :: cs, .txt, text, tokens =>
    if c = '\\' then tokLoop mode cs .backslash text tokens
    else if c = '<' then
      tokLoop mode cs .lt []
        (if text.isEmpty then tokens else tokens ++ [.text text])
    else tokLoop mode cs .txt (text ++ [c]) tokens
  | [], .lt, _, _ => .error (.eof ">".data)
  | c :: cs, .lt, text, tokens =>
    if c = '/' then tokLoop mode cs .maybeClose text tokens
    else if c = '>' then tokLoop mode cs .txt text (tokens ++ [.empty])
    else tokLoop mode cs (.tag [c]) text tokens
  | [], .tag acc, _, _ => .error (.eof ("Tag name: ".data ++ acc))
  | c :: cs, .tag acc, text, tokens =>
    if c = '>' then
      match parseStyle acc mode with
      | .error e => .error e
      | .ok st => tokLoop mode cs .txt text (tokens ++ [.fmt st])
    else if c = ',' || c = '#' || isAsciiDigit c || isAsciiWs c || isAsciiAlnum c then
      tokLoop mode cs (.tag (acc ++ [c])) text tokens
    else .error (.invalidTagChar c)
  | [], .backslash, text, tokens => .ok (tokens ++ [.text (text ++ ['\\'])])
  | c :: cs, .backslash, text, tokens =>
    if c = '<' then tokLoop mode cs .txt (text ++ ['<']) tokens
    else tokLoop mode cs .txt (text ++ ['\\', c]) tokens
  | [], .maybeClose, _, _ => .error (.eof "</".data)
  | c :: cs, .maybeClose, text, tokens =>
    if c = '>' then tokLoop mode cs .txt text (tokens ++ [.endTag])
    else .panic (namedCloseMsg c)

/-- `tokenize` from `parser.rs`. -/
def tokenize (s : List Char) (mode : ParsingMode) : PResult ParsingError (List Token) :=
  tokLoop mode s .txt [] []

/- ===== markup.rs ===== -/

/-- `AstTk` from `markup.rs`: a text run or a nested tree (the nested
`Markup` is inlined as its compiled style plus children). -/
inductive AstTk where
  | text (t : List Char)
  | tree (st : List Char) (children : List AstTk)
  deriving Repr

/-- `Markup` from `markup.rs`: a compiled style and the node's children. -/
structure Markup where
  st : List Char
  children : List AstTk
  deriving Repr

mutual
/-- One step of `Markup::render`'s loop: a text child is styled with the
node's own compiled style; a tree child renders itself recursively. -/
def renderTk (st : List Char) : AstTk → List Char
  | .text t => wrap t st
  | .tree st' cs => renderChildren st' cs

/-- `Markup::render`'s loop: render each child and concatenate in order. -/
def renderChildren (st : List Char) : List AstTk → List Char
  | [] => []
  | c :: cs => renderTk st c ++ renderChildren st cs
end

/-- `Markup::render`. -/
def Markup.render (m : Markup) : List Char := renderChildren m.st m.children

/-- The token loop of `markup_parser`: returns the final stack and current
sibling list (errors propagate immediately). -/
def buildLoop : List Token → List (Style × List AstTk) → List AstTk →
    Except ParsingError (List (Style × List AstTk) × List AstTk)
  | [], stack, cur => .ok (stack, cur)
  | .text t :: rest, stack, cur => buildLoop rest stack (cur ++ [.text t])
  | .fmt st :: rest, stack, cur => buildLoop rest ((st, cur) :: stack) []
  | .empty :: rest, stack, cur => buildLoop rest ((Style.new, cur) :: stack) []
  | .endTag :: rest, stack, cur =>
    match stack with
    | [] => .error .unexpectedClosingTag
    | (st, parent) :: stack' =>
      buildLoop rest stack' (parent ++ [.tree st.compile cur])

/-- The post-loop part of `markup_parser`: fail with `UnclosedTags` when the
stack is non-empty, else wrap the current list under the identity style. -/
def buildFromTokens (tokens : List Token) : Except ParsingError Markup :=
  match buildLoop tokens [] [] with
  | .error e => .error e
  | .ok (stack, cur) =>
    if stack.isEmpty then .ok ⟨Style.new.compile, cur⟩
    else .error .unclosedTags

/-- `Markup::markup_parser` (also `Markup::new` with markup mode). -/
def markupParser (s : List Char) (mode : ParsingMode) : PResult ParsingError Markup :=
  match tokenize s mode with
  | .panic msg => .panic msg
  | .error e => .error e
  | .ok tokens =>
    match buildFromTokens tokens with
    | .error e => .error e
    | .ok m => .ok m

/- ===== style.rs: spec constructors (panic on parse failure) ===== -/

/-- The `panic!` message of `new_from_cli_spec` on a parse error. -/
def cliPanicMsg (e : ParsingError) : List Char :=
  "Error encountered during cli parsing: ".data ++ e.display

/-- `Style::new_from_cli_spec`: parse in markup mode, panicking (not
returning `Err`) on failure. -/
def Style.newFromCliSpec (spec : List Char) : PResult StylerError Style :=
  match parseStyle spec .markup with
  | .ok st => .ok st
  | .error e => .panic (cliPanicMsg e)

/-- `CompiledStyle::new_from_cli_spec`: like `Style::new_from_cli_spec`
but compiling the result. -/
def compiledNewFromCliSpec (spec : List Char) : PResult StylerError (List Char) :=
  match parseStyle spec .markup with
  | .ok st => .ok st.compile
  | .error e => .panic (cliPanicMsg e)

/- ===== spec-side renderer (for the refinement comparison of C1) ===== -/

mutual
/-- Follows the spec's words (§4.5 Renderer): a text run renders as
itself; a sub-tree renders recursively, applying its compiled style to
the concatenation of its children's rendered forms. -/
def specRenderTk : AstTk → List Char
  | .text t => t
  | .tree st cs => wrap (specConcat cs) st

/-- Follows the spec's words: the concatenation, in order, of the
children's rendered forms. -/
def specConcat : List AstTk → List Char
  | [] => []
  | c :: cs => specRenderTk c ++ specConcat cs
end

/-- Follows the spec's words: render a node by applying its compiled style
to the concatenation of its children's rendered forms. -/
def specRenderNode (st : List Char) (cs : List AstTk) : List Char :=
  wrap (specConcat cs) st

/-- Spec-side rendering of a whole `Markup` value. -/
def specRender (m : Markup) : List Char := specRenderNode m.st m.children

/- ===== helper lemmas ===== -/

theorem toNat_charOfNat_small (n : Nat) (h : n < 0xd800) : (Char.ofNat n).toNat = n := by
  unfold Char.ofNat
  rw [dif_pos (Or.inl h)]
  rfl

theorem utf8Size_one_of_ascii (c : Char) (h : c.toNat ≤ 0x7f) : c.utf8Size = 1 := by
  unfold Char.utf8Size
  rw [if_pos]
  exact h

theorem one_le_utf8Size (c : Char) : 1 ≤ c.utf8Size := by
  unfold Char.utf8Size
  dsimp only
  split
  · omega
  · split
    · omega
    · split <;> omega

theorem length_le_utf8Len (l : List Char) : l.length ≤ utf8Len l := by
  induction l with
  | nil => simp [utf8Len]
  | cons c cs ih =>
    have := one_le_utf8Size c
    simp only [utf8Len, List.map_cons, List.sum_cons, List.length_cons] at *
    omega

theorem utf8Len_eq_length (l : List Char) (h : ∀ c ∈ l, c.utf8Size = 1) :
    utf8Len l = l.length := by
  induction l with
  | nil => rfl
  | cons c cs ih =>
    simp only [utf8Len, List.map_cons, List.sum_cons, List.length_cons] at *
    rw [h c (by simp), ih (fun x hx => h x (by simp [hx]))]
    omega

theorem isAsciiDigit_iff (c : Char) :
    isAsciiDigit c = true ↔ 48 ≤ c.toNat ∧ c.toNat ≤ 57 := by
  constructor
  · intro h
    simp only [isAsciiDigit, Bool.and_eq_true, decide_eq_true_eq] at h
    exact ⟨h.1, h.2⟩
  · intro ⟨h1, h2⟩
    simp only [isAsciiDigit, Bool.and_eq_true, decide_eq_true_eq]
    exact ⟨h1, h2⟩

theorem hexDigitVal_digit (c : Char) (h1 : 48 ≤ c.toNat) (h2 : c.toNat ≤ 57) :
    hexDigitVal c = c.toNat - 48 := by
  unfold hexDigitVal
  rw [if_pos ((isAsciiDigit_iff c).mpr ⟨h1, h2⟩)]
  rfl

theorem hexDigitVal_lower (c : Char) (h1 : 97 ≤ c.toNat) (h2 : c.toNat ≤ 102) :
    hexDigitVal c = c.toNat - 97 + 10 := by
  unfold hexDigitVal
  rw [if_neg (by rw [isAsciiDigit_iff]; omega),
    if_pos (by simp only [Bool.and_eq_true, decide_eq_true_eq]; exact ⟨h1, h2⟩)]
  rfl

theorem hexDigitVal_upper (c : Char) (h1 : 65 ≤ c.toNat) (h2 : c.toNat ≤ 70) :
    hexDigitVal c = c.toNat - 65 + 10 := by
  unfold hexDigitVal
  rw [if_neg (by rw [isAsciiDigit_iff]; omega),
    if_neg (by
      simp only [Bool.and_eq_true, decide_eq_true_eq, not_and]
      intro ha
      exact absurd (show (97:Nat) ≤ c.toNat from ha) (by omega))]
  rfl

theorem hexDigit_bounds (c : Char) (h : isHexDigitChar c = true) :
    hexDigitVal c ≤ 15 ∧ c.utf8Size = 1 ∧ c ≠ '+' ∧
      isHexDigitChar (asciiToLower c) = true ∧
      hexDigitVal (asciiToLower c) = hexDigitVal c := by
  simp only [isHexDigitChar, isAsciiDigit, Bool.or_eq_true, Bool.and_eq_true,
    decide_eq_true_eq] at h
  rcases h with (⟨h1, h2⟩ | ⟨h1, h2⟩) | ⟨h1, h2⟩
  · -- '0' ≤ c ≤ '9'
    have a1 : 48 ≤ c.toNat := h1
    have a2 : c.toNat ≤ 57 := h2
    have hlow : asciiToLower c = c := by
      unfold asciiToLower
      rw [if_neg]
      simp only [Bool.and_eq_true, decide_eq_true_eq, not_and]
      intro hA
      exact absurd (show (65:Nat) ≤ c.toNat from hA) (by omega)
    refine ⟨?_, utf8Size_one_of_ascii c (by omega), ?_, ?_, ?_⟩
    · rw [hexDigitVal_digit c a1 a2]; omega
    · intro heq
      subst heq
      exact absurd a1 (by decide)
    · rw [hlow]
      simp only [isHexDigitChar, Bool.or_eq_true]
      exact Or.inl (Or.inl ((isAsciiDigit_iff c).mpr ⟨a1, a2⟩))
    · rw [hlow]
  · -- 'a' ≤ c ≤ 'f'
    have a1 : 97 ≤ c.toNat := h1
    have a2 : c.toNat ≤ 102 := h2
    have hlow : asciiToLower c = c := by
      unfold asciiToLower
      rw [if_neg]
      simp only [Bool.and_eq_true, decide_eq_true_eq, not_and]
      intro _ hZ
      exact absurd (show c.toNat ≤ 90 from hZ) (by omega)
    refine ⟨?_, utf8Size_one_of_ascii c (by omega), ?_, ?_, ?_⟩
    · rw [hexDigitVal_lower c a1 a2]; omega
    · intro heq
      subst heq
      exact absurd a1 (by decide)
    · rw [hlow]
      simp only [isHexDigitChar, Bool.or_eq_true, Bool.and_eq_true, decide_eq_true_eq]
      exact Or.inl (Or.inr ⟨h1, h2⟩)
    · rw [hlow]
  · -- 'A' ≤ c ≤ 'F'
    have a1 : 65 ≤ c.toNat := h1
    have a2 : c.toNat ≤ 70 := h2
    have hlow : asciiToLower c = Char.ofNat (c.toNat + 32) := by
      unfold asciiToLower
      rw [if_pos]
      simp only [Bool.and_eq_true, decide_eq_true_eq]
      refine ⟨h1, ?_⟩
      show c.toNat ≤ 90
      omega
    have htn : (Char.ofNat (c.toNat + 32)).toNat = c.toNat + 32 :=
      toNat_charOfNat_small _ (by omega)
    refine ⟨?_, utf8Size_one_of_ascii c (by omega), ?_, ?_, ?_⟩
    · rw [hexDigitVal_upper c a1 a2]; omega
    · intro heq
      subst heq
      exact absurd a1 (by decide)
    · rw [hlow]
      simp only [isHexDigitChar, Bool.or_eq_true, Bool.and_eq_true, decide_eq_true_eq]
      refine Or.inl (Or.inr ⟨?_, ?_⟩)
      · show (97:Nat) ≤ (Char.ofNat (c.toNat + 32)).toNat
        omega
      · show (Char.ofNat (c.toNat + 32)).toNat ≤ 102
        omega
    · rw [hlow, hexDigitVal_upper c a1 a2, hexDigitVal_lower _ (by omega) (by omega)]
      omega

theorem stripPlus_of_ne (a : Char) (l : List Char) (h : a ≠ '+') :
    stripPlus (a :: l) = a :: l := by
  unfold stripPlus
  split
  · next heq => exact absurd (List.cons.injEq .. |>.mp heq).1 h
  · rfl

theorem hexVal_pair (a b : Char) : hexVal [a, b] = hexDigitVal a * 16 + hexDigitVal b := by
  simp [hexVal, List.foldl]

theorem parseHexU8_pair (a b : Char) (ha : isHexDigitChar a = true)
    (hb : isHexDigitChar b = true) : parseHexU8 [a, b] = some (hexVal [a, b]) := by
  obtain ⟨hva, -, hpa, -, -⟩ := hexDigit_bounds a ha
  obtain ⟨hvb, -, -, -, -⟩ := hexDigit_bounds b hb
  unfold parseHexU8
  rw [show stripPlus [a, b] = [a, b] from stripPlus_of_ne a [b] hpa]
  simp only [List.isEmpty_cons, List.all_cons, List.all_nil, ha, hb, Bool.and_true,
    Bool.and_self, Bool.not_true, Bool.or_false, Bool.false_or, if_neg, if_pos,
    Bool.false_eq_true, if_false]
  rw [if_pos]
  rw [hexVal_pair]
  omega

theorem isRustWs_space : isRustWs ' ' = true := by decide

theorem splitWsAux_no_ws (v : List Char) :
    ∀ acc, (∀ c ∈ v, isRustWs c = false) → (v ≠ [] ∨ acc ≠ []) →
      splitWsAux v acc = [acc.reverse ++ v] := by
  induction v with
  | nil =>
    intro acc _ hne
    rcases hne with h | h
    · exact absurd rfl h
    · simp only [splitWsAux]
      rw [if_neg (by simpa using h)]
      simp
  | cons c cs ih =>
    intro acc hws _
    simp only [splitWsAux]
    rw [if_neg (by simp [hws c (by simp)])]
    rw [ih (c :: acc) (fun x hx => hws x (by simp [hx])) (Or.inr (by simp))]
    simp

theorem splitWsAux_token_space (v : List Char) :
    ∀ acc rest, (∀ c ∈ v, isRustWs c = false) → (v ≠ [] ∨ acc ≠ []) →
      splitWsAux (v ++ ' ' :: rest) acc = (acc.reverse ++ v) :: splitWsAux rest [] := by
  induction v with
  | nil =>
    intro acc rest _ hne
    rcases hne with h | h
    · exact absurd rfl h
    · simp only [List.nil_append, splitWsAux, isRustWs_space, if_true]
      rw [if_neg (by simpa using h)]
      simp
  | cons c cs ih =>
    intro acc rest hws _
    simp only [List.cons_append, splitWsAux, List.append_eq]
    rw [if_neg (by simp [hws c (by simp)])]
    rw [ih (c :: acc) rest (fun x hx => hws x (by simp [hx])) (Or.inr (by simp))]
    simp

theorem splitWs_two_tokens (p v : List Char) (hp : p ≠ [])
    (hpw : ∀ c ∈ p, isRustWs c = false) (hv : v ≠ [])
    (hvw : ∀ c ∈ v, isRustWs c = false) :
    splitWs (p ++ ' ' :: v) = [p, v] := by
  unfold splitWs
  rw [splitWsAux_token_space p [] v hpw (Or.inl hp)]
  rw [splitWsAux_no_ws v [] hvw (Or.inl hv)]
  simp

theorem splitWs_four_tokens (p v q w : List Char) (hp : p ≠ [])
    (hpw : ∀ c ∈ p, isRustWs c = false) (hv : v ≠ [])
    (hvw : ∀ c ∈ v, isRustWs c = false) (hq : q ≠ [])
    (hqw : ∀ c ∈ q, isRustWs c = false) (hw : w ≠ [])
    (hww : ∀ c ∈ w, isRustWs c = false) :
    splitWs (p ++ ' ' :: (v ++ ' ' :: (q ++ ' ' :: w))) = [p, v, q, w] := by
  unfold splitWs
  rw [splitWsAux_token_space p [] _ hpw (Or.inl hp)]
  rw [splitWsAux_token_space v [] _ hvw (Or.inl hv)]
  rw [splitWsAux_token_space q [] _ hqw (Or.inl hq)]
  rw [splitWsAux_no_ws w [] hww (Or.inl hw)]
  simp

theorem commaSplit_ne_nil (l : List Char) : commaSplit l ≠ [] := by
  cases l with
  | nil => simp [commaSplit]
  | cons c cs =>
    unfold commaSplit
    by_cases hc : c = ','
    · simp [hc]
    · rw [if_neg hc]
      match commaSplit cs with
      | [] => simp
      | t :: ts => simp

theorem commaSplit_length (l : List Char) :
    (commaSplit l).length = l.count ',' + 1 := by
  induction l with
  | nil => simp [commaSplit]
  | cons c cs ih =>
    unfold commaSplit
    by_cases hc : c = ','
    · rw [if_pos hc]
      subst hc
      simp [List.count_cons, ih]
    · rw [if_neg hc]
      match hm : commaSplit cs with
      | [] => exact absurd hm (commaSplit_ne_nil cs)
      | t :: ts =>
        rw [hm] at ih
        simp only [List.length_cons] at ih ⊢
        rw [List.count_cons, ih]
        simp [hc]

theorem mem_stripPlus_of_mem (c : Char) (l : List Char) (hc : c ∈ l) (hp : c ≠ '+') :
    c ∈ stripPlus l := by
  unfold stripPlus
  split
  · simpa [hp] using hc
  · exact hc

theorem parseU8_none_of_bad (l : List Char) (c : Char) (hc : c ∈ stripPlus l)
    (hd : isAsciiDigit c = false) : parseU8 l = none := by
  unfold parseU8
  have hall : (stripPlus l).all isAsciiDigit = false := by
    rw [List.all_eq_false]
    exact ⟨c, hc, by simp [hd]⟩
  rw [if_pos (by simp [hall])]

theorem parseU8_comma_none (l : List Char) (hc : ',' ∈ l) : parseU8 l = none :=
  parseU8_none_of_bad l ','
    (mem_stripPlus_of_mem ',' l hc (by decide)) (by decide)

/- ===== claim theorems ===== -/

/-- C2: parsing the empty style-spec string yields the identity `Style`;
applying a style (plain or compiled) returns the text unchanged whenever
the text is empty or the collected code list is empty; in particular the
identity style is a no-op on any text, with no escape wrapping. -/
theorem c2_identity_style :
    parseStyle "".data .markup = .ok Style.new
    ∧ (∀ (st : Style) (t : List Char), t = [] ∨ st.collect = [] → st.styleApply t = t)
    ∧ (∀ compiled t : List Char, t = [] ∨ compiled = [] → compiledApply compiled t = t)
    ∧ (∀ t : List Char, Style.new.styleApply t = t) := by
  refine ⟨rfl, ?_, ?_, ?_⟩
  · intro st t h
    rcases h with h | h <;> simp [Style.styleApply, wrap, h]
  · intro compiled t h
    rcases h with h | h <;> simp [compiledApply, wrap, h]
  · intro t
    simp [Style.styleApply, wrap, show Style.new.collect = [] from rfl]

/-- Witness for C2 at concrete inputs. -/
theorem c2_identity_style_witness :
    Style.new.styleApply "hello".data = "hello".data
    ∧ compiledApply [] "hello".data = "hello".data :=
  ⟨c2_identity_style.2.2.2 "hello".data,
   c2_identity_style.2.2.1 [] "hello".data (Or.inr rfl)⟩

/-- C5 counterexample: the color token "#12" parses successfully — a
length-2 hex body is legal and is replicated to "121212" — so parsing it
does not fail with an invalid hex length error. -/
theorem c5_hash12_parses :
    parseColor "#12".data .markup = .ok (.rgb 18 18 18) := rfl

/-- C6: the style-spec parser rejects more than 6 whitespace tokens with
`TooManyArguments` (checked first, regardless of content) and an odd token
count with `MissingParameterValue`; exactly 6 tokens forming 3 valid pairs
succeed. -/
theorem c6_argument_count :
    (∀ (s : List Char) (mode : ParsingMode), 6 < (splitWs s).length →
      parseStyle s mode = .error (.tooManyArgs s (splitWs s).length))
    ∧ (∀ (s : List Char) (mode : ParsingMode), (splitWs s).length ≤ 6 →
      (splitWs s).length % 2 = 1 → parseStyle s mode = .error (.missingParamVal s))
    ∧ parseStyle "f r b g m b".data .markup
        = .ok { fg := some (.red, .fg), bg := some (.green, .bg), mdfs := [.bold] } := by
  refine ⟨?_, ?_, rfl⟩
  · intro s mode h
    simp only [parseStyle]
    rw [if_pos h]
  · intro s mode h1 h2
    simp only [parseStyle]
    rw [if_neg (by omega), if_pos h2]

/-- Witness for C6: a 7-token spec (odd count, but the count bound is
checked first) and a 1-token spec. -/
theorem c6_argument_count_witness :
    parseStyle "a a a a a a a".data .markup
      = .error (.tooManyArgs "a a a a a a a".data 7)
    ∧ parseStyle "f".data .markup = .error (.missingParamVal "f".data) :=
  ⟨c6_argument_count.1 "a a a a a a a".data .markup (by decide),
   c6_argument_count.2.1 "f".data .markup (by decide) (by decide)⟩

/-- C10: whenever the style-spec grammar fails, `Style::new_from_cli_spec`
and `CompiledStyle::new_from_cli_spec` panic with the interpolated parse
error, and neither ever returns the `Err` variant of its `Result` type. -/
theorem c10_cli_spec_panics :
    (∀ (s : List Char) (e : ParsingError), parseStyle s .markup = .error e →
      Style.newFromCliSpec s = .panic (cliPanicMsg e)
      ∧ compiledNewFromCliSpec s = .panic (cliPanicMsg e))
    ∧ (∀ s : List Char, (Style.newFromCliSpec s).isError = false
      ∧ (compiledNewFromCliSpec s).isError = false) := by
  constructor
  · intro s e h
    constructor <;> simp [Style.newFromCliSpec, compiledNewFromCliSpec, h]
  · intro s
    constructor
    · cases h : parseStyle s .markup <;>
        simp [Style.newFromCliSpec, h, PResult.isError]
    · cases h : parseStyle s .markup <;>
        simp [compiledNewFromCliSpec, h, PResult.isError]

/-- Witness for C10: the failing spec "f" panics with the interpolated
message; a failing spec never yields the `Err` variant. -/
theorem c10_cli_spec_panics_witness :
    Style.newFromCliSpec "f".data = .panic (cliPanicMsg (.missingParamVal "f".data))
    ∧ (Style.newFromCliSpec "z x".data).isError = false :=
  ⟨(c10_cli_spec_panics.1 "f".data (.missingParamVal "f".data) rfl).1,
   (c10_cli_spec_panics.2 "z x".data).1⟩

/-- C8 (amended): on `</` followed by any character other than `>`, the
tokenizer raises an explicit "not supported" failure — but as a `todo!`
panic, not as a structured `ParsingError` returned to the caller; the
panic propagates out of the whole markup parse. -/
theorem c8_named_close_panics :
    (∀ (mode : ParsingMode) (cs text : List Char) (tokens : List Token) (c : Char),
      c ≠ '>' → tokLoop mode (c :: cs) .maybeClose text tokens = .panic (namedCloseMsg c))
    ∧ markupParser "</x".data .markup = .panic (namedCloseMsg 'x') := by
  constructor
  · intro mode cs text tokens c hc
    simp [tokLoop, hc]
  · rfl

/-- Witness for C8 at a concrete non-`>` character. -/
theorem c8_named_close_panics_witness :
    tokLoop .markup ['q'] .maybeClose [] [] = .panic (namedCloseMsg 'q')
    ∧ markupParser "</x".data .markup = .panic (namedCloseMsg 'x') :=
  ⟨c8_named_close_panics.1 .markup [] [] [] 'q' (by decide),
   c8_named_close_panics.2⟩

/-- C8 counterexample: on "</x" the tokenizer panics rather than returning
a structured error value — the result is not the `Err` variant, so the
failure is not "reported as one structured error to the caller". -/
theorem c8_not_structured_error :
    tokenize "</x".data .markup = .panic (namedCloseMsg 'x')
    ∧ (tokenize "</x".data .markup).isError = false := ⟨rfl, rfl⟩

/-- C9 (amended): a Close token with an empty frame stack fails with
`UnexpectedClosingTag`; end of tokens with a non-empty stack fails with
`UnclosedTags`; `<m b>unterminated` (a valid tag body, unlike `<b>`) yields
`UnclosedTags`, and a lone `</>` yields `UnexpectedClosingTag`. -/
theorem c9_stack_errors :
    (∀ (rest : List Token) (cur : List AstTk),
      buildLoop (Token.endTag :: rest) [] cur = .error .unexpectedClosingTag)
    ∧ (∀ (tokens : List Token) (frame : Style × List AstTk)
        (stack' : List (Style × List AstTk)) (cur : List AstTk),
      buildLoop tokens [] [] = .ok (frame :: stack', cur) →
      buildFromTokens tokens = .error .unclosedTags)
    ∧ markupParser "<m b>unterminated".data .markup = .error .unclosedTags
    ∧ markupParser "</>".data .markup = .error .unexpectedClosingTag := by
  refine ⟨fun rest cur => rfl, ?_, rfl, rfl⟩
  intro tokens frame stack' cur h
  unfold buildFromTokens
  rw [h]
  rfl

/-- Witness for C9: one unclosed styled-open token triggers `UnclosedTags`;
a lone Close token triggers `UnexpectedClosingTag`. -/
theorem c9_stack_errors_witness :
    buildFromTokens [Token.fmt Style.new] = .error .unclosedTags
    ∧ buildLoop [Token.endTag] [] [] = .error .unexpectedClosingTag :=
  ⟨c9_stack_errors.2.1 [Token.fmt Style.new] (Style.new, []) [] [] rfl,
   c9_stack_errors.1 [] []⟩

/-- C9 counterexample: `<b>unterminated` does not yield `UnclosedTags` —
the tag body "b" is a single token, so the parse fails earlier with
`MissingParameterValue("b")`. -/
theorem c9_unterminated_counterexample :
    markupParser "<b>unterminated".data .markup = .error (.missingParamVal "b".data)
    ∧ markupParser "<b>unterminated".data .markup ≠ .error .unclosedTags := by
  refine ⟨rfl, ?_⟩
  intro h
  rw [show markupParser "<b>unterminated".data .markup
    = .error (.missingParamVal "b".data) from rfl] at h
  exact ParsingError.noConfusion (PResult.error.inj h)

/-- C1 counterexample: rendering does not apply a node's compiled style to
the concatenation of its children's rendered forms — for the node with
style "1" and children [text "bold", tree "3" [text " and italic"]] the
two sides differ; moreover the cited input `<b>bold<i> and italic</></>`
does not even produce a tree: the tag body "b" is a single token and the
parse fails with `MissingParameterValue`. -/
theorem c1_render_counterexample :
    markupParser "<b>bold<i> and italic</></>".data .markup
      = .error (.missingParamVal "b".data)
    ∧ Markup.render ⟨"1".data, [.text "bold".data, .tree "3".data [.text " and italic".data]]⟩
      ≠ wrap (specConcat [.text "bold".data, .tree "3".data [.text " and italic".data]])
          "1".data := by
  refine ⟨rfl, ?_⟩
  intro h
  rw [show Markup.render ⟨"1".data, [.text "bold".data, .tree "3".data
        [.text " and italic".data]]⟩
      = "\x1b[1mbold\x1b[0m\x1b[3m and italic\x1b[0m".data from rfl] at h
  rw [show wrap (specConcat [.text "bold".data, .tree "3".data [.text " and italic".data]])
        "1".data
      = "\x1b[1mbold\x1b[3m and italic\x1b[0m\x1b[0m".data from rfl] at h
  exact absurd h (by decide)

/-- C1 (amended): rendering styles each text-run child with the node's own
compiled style individually and lets each sub-tree render itself
recursively, concatenating the fragments in order — the node's style is
not applied around the concatenation.  For the valid input
`<m b>bold<m i> and italic</></>` the tree has the claimed shape and the
bold region's reset appears before the italic region's escape sequence. -/
theorem c1_render_per_child :
    markupParser "<m b>bold<m i> and italic</></>".data .markup
      = .ok ⟨[], [.tree "1".data [.text "bold".data, .tree "3".data [.text " and italic".data]]]⟩
    ∧ Markup.render ⟨[], [.tree "1".data [.text "bold".data,
        .tree "3".data [.text " and italic".data]]]⟩
      = "\x1b[1mbold\x1b[0m\x1b[3m and italic\x1b[0m".data
    ∧ (∀ (st t : List Char) (rest : List AstTk),
        renderChildren st (AstTk.text t :: rest) = wrap t st ++ renderChildren st rest)
    ∧ (∀ (st st' : List Char) (cs rest : List AstTk),
        renderChildren st (AstTk.tree st' cs :: rest)
          = renderChildren st' cs ++ renderChildren st rest) :=
  ⟨rfl, rfl, fun _ _ _ => rfl, fun _ _ _ _ => rfl⟩

/-- C3: for every color token v, the pair `fb v` parses to the same Style
as setting foreground v then brightening, which equals brightening first
then setting foreground v; and a later plain `f` pair preserves a bright
foreground channel set by an earlier `fb` pair (symmetrically `b`/`bb`). -/
theorem c3_brighten_stacking :
    ∀ (v : List Char) (c : Color), v ≠ [] → (∀ ch ∈ v, isRustWs ch = false) →
      parseColor v .markup = .ok c →
      parseStyle ("fb".data ++ ' ' :: v) .markup = .ok ((Style.new.setFg c).fgBrighten)
      ∧ (Style.new.setFg c).fgBrighten = Style.new.fgBrighten.setFg c
      ∧ (∀ (w : List Char) (d : Color), w ≠ [] → (∀ ch ∈ w, isRustWs ch = false) →
          parseColor w .markup = .ok d →
          parseStyle ("fb".data ++ ' ' :: (v ++ ' ' :: ("f".data ++ ' ' :: w))) .markup
            = .ok { fg := some (d, ClrType.fgBright), bg := none, mdfs := [] }
          ∧ parseStyle ("bb".data ++ ' ' :: (v ++ ' ' :: ("b".data ++ ' ' :: w))) .markup
            = .ok { fg := none, bg := some (d, ClrType.bgBright), mdfs := [] }) := by
  intro v c hv hvw hc
  have hsplit : splitWs ('f' :: 'b' :: ' ' :: v) = [['f', 'b'], v] :=
    splitWs_two_tokens "fb".data v (by decide) (by decide) hv hvw
  refine ⟨?_, rfl, ?_⟩
  · simp [parseStyle, hsplit, chunkPairs, foldPairs, applyPair, hc, Except.map]
  · intro w d hw hww hd
    have hsplit4f : splitWs ('f' :: 'b' :: ' ' :: (v ++ ' ' :: 'f' :: ' ' :: w))
        = [['f', 'b'], v, ['f'], w] :=
      splitWs_four_tokens "fb".data v "f".data w (by decide) (by decide) hv hvw
        (by decide) (by decide) hw hww
    have hsplit4b : splitWs ('b' :: 'b' :: ' ' :: (v ++ ' ' :: 'b' :: ' ' :: w))
        = [['b', 'b'], v, ['b'], w] :=
      splitWs_four_tokens "bb".data v "b".data w (by decide) (by decide) hv hvw
        (by decide) (by decide) hw hww
    constructor
    · simp [parseStyle, hsplit4f, chunkPairs, foldPairs, applyPair, hc, hd, Except.map,
        Style.new, Style.setFg, Style.fgBrighten]
    · simp [parseStyle, hsplit4b, chunkPairs, foldPairs, applyPair, hc, hd, Except.map,
        Style.new, Style.setBg, Style.bgBrighten]

/-- Witness for C3 at v = "r", w = "g". -/
theorem c3_brighten_stacking_witness :
    parseStyle "fb r".data .markup = .ok ((Style.new.setFg .red).fgBrighten)
    ∧ parseStyle "fb r f g".data .markup
      = .ok { fg := some (.green, .fgBright), bg := none, mdfs := [] } :=
  ⟨(c3_brighten_stacking "r".data .red (by decide) (by decide) rfl).1,
   ((c3_brighten_stacking "r".data .red (by decide) (by decide) rfl).2.2
     "g".data .green (by decide) (by decide) rfl).1⟩

/-- C7: a color token that is not hex-marked and whose lowercased form
splits on `,` into exactly 3 parts parses to an RGB color whose components
are the parts trimmed and parsed as 8-bit integers, any failing (or empty)
part defaulting to 0; in particular ",128," parses to RGB(0,128,0).  (A
token with two commas can be neither a single-letter alias nor a bare
8-bit integer, so the earlier branches never fire.) -/
theorem c7_lenient_rgb :
    (∀ (v p₀ p₁ p₂ : List Char),
      commaSplit (v.map asciiToLower) = [p₀, p₁, p₂] →
      hexStrip .markup (v.map asciiToLower) = none →
      parseColor v .markup
        = .ok (.rgb ((parseU8 (trimWs p₀)).getD 0) ((parseU8 (trimWs p₁)).getD 0)
            ((parseU8 (trimWs p₂)).getD 0)))
    ∧ parseColor ",128,".data .markup = .ok (.rgb 0 128 0) := by
  refine ⟨?_, rfl⟩
  intro v p0 p1 p2 hsplit hhex
  have hcount : (v.map asciiToLower).count ',' = 2 := by
    have h := commaSplit_length (v.map asciiToLower)
    rw [hsplit] at h
    simp at h
    omega
  have hmem : ',' ∈ v.map asciiToLower := List.count_pos_iff.mp (by omega)
  have hlen : 2 ≤ (v.map asciiToLower).length := by
    have := List.count_le_length ',' (v.map asciiToLower)
    omega
  have hutf : ¬ (utf8Len (v.map asciiToLower) = 1) := by
    have := length_le_utf8Len (v.map asciiToLower)
    omega
  have hu8 : parseU8 (v.map asciiToLower) = none := parseU8_comma_none _ hmem
  unfold parseColor
  rw [if_neg (by simp [hutf])]
  rw [hu8, hhex, hsplit]
  simp

theorem utf8Len_cons (c : Char) (l : List Char) :
    utf8Len (c :: l) = c.utf8Size + utf8Len l := by
  simp [utf8Len]

theorem parseU8_hash_none (l : List Char) : parseU8 ('#' :: l) = none :=
  parseU8_none_of_bad _ '#'
    (by rw [stripPlus_of_ne _ _ (by decide)]; simp) (by decide)

theorem parseColor_hash (rest : List Char) (hne : rest ≠ []) :
    parseColor ('#' :: rest) .markup = hexParse (rest.map asciiToLower) := by
  unfold parseColor
  rw [List.map_cons, show asciiToLower '#' = '#' from rfl]
  rw [if_neg ?guard]
  case guard =>
    have hlen : 1 ≤ (rest.map asciiToLower).length := by
      cases rest with
      | nil => exact absurd rfl hne
      | cons c cs => simp
    have h1 : 1 ≤ utf8Len (rest.map asciiToLower) := by
      have := length_le_utf8Len (rest.map asciiToLower)
      omega
    have h2 : utf8Len ('#' :: rest.map asciiToLower) ≠ 1 := by
      rw [utf8Len_cons, show ('#').utf8Size = 1 from rfl]
      omega
    simp [h2]
  rw [parseU8_hash_none]
  rfl

theorem hexParse_len2 (hex : List Char) (h : utf8Len hex = 2) :
    hexParse hex = hexParse.hexComponents (hex ++ hex ++ hex) := by
  unfold hexParse
  rw [h]

theorem hexParse_len3 (hex : List Char) (h : utf8Len hex = 3) :
    hexParse hex = hexParse.hexComponents ((hex.map (fun c => [c, c])).flatten) := by
  unfold hexParse
  rw [h]

theorem hexParse_len6 (hex : List Char) (h : utf8Len hex = 6) :
    hexParse hex = hexParse.hexComponents hex := by
  unfold hexParse
  rw [h]

theorem hexComponents_pairs (x y z u v w : Char) (hx : isHexDigitChar x = true)
    (hy : isHexDigitChar y = true) (hz : isHexDigitChar z = true)
    (hu : isHexDigitChar u = true) (hv : isHexDigitChar v = true)
    (hw : isHexDigitChar w = true) :
    hexParse.hexComponents [x, y, z, u, v, w]
      = .ok (.rgb (hexVal [x, y]) (hexVal [z, u]) (hexVal [v, w])) := by
  unfold hexParse.hexComponents
  rw [show ([x, y, z, u, v, w] : List Char).take 2 = [x, y] from rfl,
    show (([x, y, z, u, v, w] : List Char).drop 2).take 2 = [z, u] from rfl,
    show (([x, y, z, u, v, w] : List Char).drop 4).take 2 = [v, w] from rfl,
    parseHexU8_pair x y hx hy, parseHexU8_pair z u hz hu, parseHexU8_pair v w hv hw]

/-- C4: in markup mode, a color token `#h` whose hex-digit body has length
2, 3, or 6 parses to the RGB color obtained by expanding the body (length
2: repeated three times; length 3: each digit doubled; length 6: as-is)
and reading the six digits as three base-16 pairs; `#ABC` and `#AABBCC`
both give RGB(0xAA,0xBB,0xCC), and `#0080FF` gives RGB(0,128,255). -/
theorem c4_hex_expansion :
    (∀ a b : Char, isHexDigitChar a = true → isHexDigitChar b = true →
      parseColor ['#', a, b] .markup
        = .ok (.rgb (hexVal [a, b]) (hexVal [a, b]) (hexVal [a, b])))
    ∧ (∀ a b c : Char, isHexDigitChar a = true → isHexDigitChar b = true →
      isHexDigitChar c = true →
      parseColor ['#', a, b, c] .markup
        = .ok (.rgb (hexVal [a, a]) (hexVal [b, b]) (hexVal [c, c])))
    ∧ (∀ a b c d e f : Char, isHexDigitChar a = true → isHexDigitChar b = true →
      isHexDigitChar c = true → isHexDigitChar d = true → isHexDigitChar e = true →
      isHexDigitChar f = true →
      parseColor ['#', a, b, c, d, e, f] .markup
        = .ok (.rgb (hexVal [a, b]) (hexVal [c, d]) (hexVal [e, f])))
    ∧ parseColor "#ABC".data .markup = .ok (.rgb 0xAA 0xBB 0xCC)
    ∧ parseColor "#AABBCC".data .markup = .ok (.rgb 0xAA 0xBB 0xCC)
    ∧ parseColor "#0080FF".data .markup = .ok (.rgb 0 128 255) := by
  refine ⟨?_, ?_, ?_, rfl, rfl, rfl⟩
  · intro a b ha hb
    obtain ⟨-, hsa, -, hla, heqa⟩ := hexDigit_bounds a ha
    obtain ⟨-, hsb, -, hlb, heqb⟩ := hexDigit_bounds b hb
    obtain ⟨-, hsa', -, -, -⟩ := hexDigit_bounds _ hla
    obtain ⟨-, hsb', -, -, -⟩ := hexDigit_bounds _ hlb
    have hlen2 : utf8Len [asciiToLower a, asciiToLower b] = 2 := by
      simp [utf8Len, hsa', hsb']
    rw [show (['#', a, b] : List Char) = '#' :: [a, b] from rfl,
      parseColor_hash [a, b] (by simp),
      show ([a, b] : List Char).map asciiToLower
        = [asciiToLower a, asciiToLower b] from rfl,
      hexParse_len2 _ hlen2,
      show ([asciiToLower a, asciiToLower b] : List Char) ++ [asciiToLower a, asciiToLower b]
          ++ [asciiToLower a, asciiToLower b]
        = [asciiToLower a, asciiToLower b, asciiToLower a, asciiToLower b,
           asciiToLower a, asciiToLower b] from rfl,
      hexComponents_pairs _ _ _ _ _ _ hla hlb hla hlb hla hlb]
    have hv : hexVal [asciiToLower a, asciiToLower b] = hexVal [a, b] := by
      rw [hexVal_pair, hexVal_pair, heqa, heqb]
    rw [hv]
  · intro a b c ha hb hc
    obtain ⟨-, hsa, -, hla, heqa⟩ := hexDigit_bounds a ha
    obtain ⟨-, hsb, -, hlb, heqb⟩ := hexDigit_bounds b hb
    obtain ⟨-, hsc, -, hlc, heqc⟩ := hexDigit_bounds c hc
    obtain ⟨-, hsa', -, -, -⟩ := hexDigit_bounds _ hla
    obtain ⟨-, hsb', -, -, -⟩ := hexDigit_bounds _ hlb
    obtain ⟨-, hsc', -, -, -⟩ := hexDigit_bounds _ hlc
    have hlen3 : utf8Len [asciiToLower a, asciiToLower b, asciiToLower c] = 3 := by
      simp [utf8Len, hsa', hsb', hsc']
    rw [show (['#', a, b, c] : List Char) = '#' :: [a, b, c] from rfl,
      parseColor_hash [a, b, c] (by simp),
      show ([a, b, c] : List Char).map asciiToLower
        = [asciiToLower a, asciiToLower b, asciiToLower c] from rfl,
      hexParse_len3 _ hlen3,
      show (([asciiToLower a, asciiToLower b, asciiToLower c] : List Char).map
          (fun ch => [ch, ch])).flatten
        = [asciiToLower a, asciiToLower a, asciiToLower b, asciiToLower b,
           asciiToLower c, asciiToLower c] from rfl,
      hexComponents_pairs _ _ _ _ _ _ hla hla hlb hlb hlc hlc]
    have hva : hexVal [asciiToLower a, asciiToLower a] = hexVal [a, a] := by
      rw [hexVal_pair, hexVal_pair, heqa]
    have hvb : hexVal [asciiToLower b, asciiToLower b] = hexVal [b, b] := by
      rw [hexVal_pair, hexVal_pair, heqb]
    have hvc : hexVal [asciiToLower c, asciiToLower c] = hexVal [c, c] := by
      rw [hexVal_pair, hexVal_pair, heqc]
    rw [hva, hvb, hvc]
  · intro a b c d e f ha hb hc hd he hf
    obtain ⟨-, hsa, -, hla, heqa⟩ := hexDigit_bounds a ha
    obtain ⟨-, hsb, -, hlb, heqb⟩ := hexDigit_bounds b hb
    obtain ⟨-, hsc, -, hlc, heqc⟩ := hexDigit_bounds c hc
    obtain ⟨-, hsd, -, hld, heqd⟩ := hexDigit_bounds d hd
    obtain ⟨-, hse, -, hle, heqe⟩ := hexDigit_bounds e he
    obtain ⟨-, hsf, -, hlf, heqf⟩ := hexDigit_bounds f hf
    obtain ⟨-, hsa', -, -, -⟩ := hexDigit_bounds _ hla
    obtain ⟨-, hsb', -, -, -⟩ := hexDigit_bounds _ hlb
    obtain ⟨-, hsc', -, -, -⟩ := hexDigit_bounds _ hlc
    obtain ⟨-, hsd', -, -, -⟩ := hexDigit_bounds _ hld
    obtain ⟨-, hse', -, -, -⟩ := hexDigit_bounds _ hle
    obtain ⟨-, hsf', -, -, -⟩ := hexDigit_bounds _ hlf
    have hlen6 : utf8Len [asciiToLower a, asciiToLower b, asciiToLower c,
        asciiToLower d, asciiToLower e, asciiToLower f] = 6 := by
      simp [utf8Len, hsa', hsb', hsc', hsd', hse', hsf']
    rw [show (['#', a, b, c, d, e, f] : List Char) = '#' :: [a, b, c, d, e, f] from rfl,
      parseColor_hash [a, b, c, d, e, f] (by simp),
      show ([a, b, c, d, e, f] : List Char).map asciiToLower
        = [asciiToLower a, asciiToLower b, asciiToLower c, asciiToLower d,
           asciiToLower e, asciiToLower f] from rfl,
      hexParse_len6 _ hlen6,
      hexComponents_pairs _ _ _ _ _ _ hla hlb hlc hld hle hlf]
    have hvab : hexVal [asciiToLower a, asciiToLower b] = hexVal [a, b] := by
      rw [hexVal_pair, hexVal_pair, heqa, heqb]
    have hvcd : hexVal [asciiToLower c, asciiToLower d] = hexVal [c, d] := by
      rw [hexVal_pair, hexVal_pair, heqc, heqd]
    have hvef : hexVal [asciiToLower e, asciiToLower f] = hexVal [e, f] := by
      rw [hexVal_pair, hexVal_pair, heqe, heqf]
    rw [hvab, hvcd, hvef]

/-- Witness for C4 at concrete hex bodies of each legal length. -/
theorem c4_hex_expansion_witness :
    parseColor "#1f".data .markup = .ok (.rgb 0x1f 0x1f 0x1f)
    ∧ parseColor "#1fA".data .markup = .ok (.rgb 0x11 0xff 0xAA)
    ∧ parseColor "#0080FF".data .markup = .ok (.rgb 0 128 255) :=
  ⟨c4_hex_expansion.1 '1' 'f' (by decide) (by decide),
   c4_hex_expansion.2.1 '1' 'f' 'A' (by decide) (by decide) (by decide),
   c4_hex_expansion.2.2.2.2.2⟩

/-- Witness for C7 at the token "1,2,3". -/
theorem c7_lenient_rgb_witness :
    parseColor "1,2,3".data .markup = .ok (.rgb 1 2 3) :=
  c7_lenient_rgb.1 "1,2,3".data "1".data "2".data "3".data rfl rfl

theorem hexParse_len_invalid (hex : List Char) (h2 : utf8Len hex ≠ 2)
    (h3 : utf8Len hex ≠ 3) (h6 : utf8Len hex ≠ 6) :
    hexParse hex = .error (.invalidHexClr hex (utf8Len hex)) := by
  unfold hexParse
  split
  · next h => exact absurd h h2
  · next h => exact absurd h h3
  · next h => exact absurd h h6
  · rfl

/-- C5 (amended): parsing "#12" succeeds with RGB(0x12,0x12,0x12) — a
length-2 hex body is legal; a `#`-marked token with a non-empty body
whose (lowercased) byte length is anything other than 2, 3, or 6 fails
with the invalid-hex-length error carrying that body and length, as
"#1" and "#1234" do concretely. -/
theorem c5_hex_length_behavior :
    parseColor "#12".data .markup = .ok (.rgb 0x12 0x12 0x12)
    ∧ (∀ rest : List Char, rest ≠ [] →
        utf8Len (rest.map asciiToLower) ≠ 2 →
        utf8Len (rest.map asciiToLower) ≠ 3 →
        utf8Len (rest.map asciiToLower) ≠ 6 →
        parseColor ('#' :: rest) .markup
          = .error (.invalidHexClr (rest.map asciiToLower)
              (utf8Len (rest.map asciiToLower))))
    ∧ parseColor "#1".data .markup = .error (.invalidHexClr "1".data 1)
    ∧ parseColor "#1234".data .markup = .error (.invalidHexClr "1234".data 4) := by
  refine ⟨rfl, ?_, rfl, rfl⟩
  intro rest hne h2 h3 h6
  rw [parseColor_hash rest hne]
  exact hexParse_len_invalid _ h2 h3 h6

/-- Witness for C5 at a length-5 hex body. -/
theorem c5_hex_length_behavior_witness :
    parseColor "#12345".data .markup = .error (.invalidHexClr "12345".data 5) :=
  c5_hex_length_behavior.2.1 "12345".data (by decide) (by decide) (by decide) (by decide)
